import Mathlib

/-!
# Verification of the RTSP camera recorder's supervision / watchdog / retention core

Shallow embedding of `src/main.py` (SimpleRTSPCameraRecorder): the retention
manager (`CleanupManager._cleanup_cycle`), the exit-code handler
(`FFmpegRecorder._handle_exit_code`), the staged shutdown
(`FFmpegRecorder._terminate_ffmpeg`), the liveness monitor loop
(`FFmpegRecorder._monitor_process`) and the file-close event handler
(`FileEventHandler.on_closed`), together with theorems settling the spec's
claims about them.
-/

set_option maxHeartbeats 1000000

namespace RTSPRecorder

/-! ## Retention model: `CleanupManager._cleanup_cycle`

A file seen by the retention scan is `(creation time, path, size)`, mirroring
the tuples `(file_time, filepath, stat.st_size)` built by the Python code.
Times and sizes are naturals (the code compares them only by order).
-/

structure RFile where
  ctime : Nat
  path : String
  size : Nat
  deriving DecidableEq, Repr

/-- The comparison actually used by the code: `files.sort(key=lambda x: x[0])`
compares creation times only. -/
def ctimeLE (a b : RFile) : Prop := a.ctime ≤ b.ctime

instance : DecidableRel ctimeLE := fun a b => Nat.decLe a.ctime b.ctime

instance : IsTotal RFile ctimeLE := ⟨fun a b => Nat.le_total a.ctime b.ctime⟩

instance : IsTrans RFile ctimeLE := ⟨fun _ _ _ hab hbc => Nat.le_trans hab hbc⟩

def sumSizes (l : List RFile) : Nat := (l.map RFile.size).sum

/-- First phase of `_cleanup_cycle`: walk the directory listing; a zero-size
file is deleted on the spot and excluded from the candidate list; every other
file is appended (listing order preserved) and its size added to the running
total. Returns (candidates, total_size). -/
def collectCandidates : List RFile → List RFile × Nat
  | [] => ([], 0)
  | f :: rest =>
    let r := collectCandidates rest
    if f.size = 0 then r else (f :: r.1, r.2 + f.size)

/-- Model of `files.sort(key=lambda x: x[0])`: Python's stable sort keyed on creation
time alone. A stable sort under a total preorder has a unique result, so the
(stable) insertion sort with `ctimeLE` is the same function. -/
def sortCands (l : List RFile) : List RFile := l.insertionSort ctimeLE

/-- The count-limit loop: `while len(files) > max_files: pop(0), remove, total -= size`.
Returns (remaining, deleted-in-order, total after the loop). -/
def countLoop (maxFiles : Nat) : List RFile → Nat → List RFile × List RFile × Nat
  | [], total => ([], [], total)
  | f :: rest, total =>
    if (f :: rest).length > maxFiles then
      let r := countLoop maxFiles rest (total - f.size)
      (r.1, f :: r.2.1, r.2.2)
    else (f :: rest, [], total)

/-- The size-limit loop: `while total_size > max_size and files: pop(0), remove, total -= size`.
Returns (remaining, deleted-in-order). -/
def sizeLoop (maxSize : Nat) : List RFile → Nat → List RFile × List RFile
  | [], _ => ([], [])
  | f :: rest, total =>
    if total > maxSize then
      let r := sizeLoop maxSize rest (total - f.size)
      (r.1, f :: r.2)
    else (f :: rest, [])

/-- One retention cycle (`CleanupManager._cleanup_cycle`), under the assumption
that every `os.remove` succeeds (the failure path only logs and skips).
Returns (remaining candidates, deleted candidates in deletion order); the
zero-size files removed in phase one are not part of either list, exactly as
in the code. -/
def cleanup_cycle (maxFiles maxSize : Nat) (listing : List RFile) :
    List RFile × List RFile :=
  let ct := collectCandidates listing
  let sorted := sortCands ct.1
  let cl := countLoop maxFiles sorted ct.2
  let sl := sizeLoop maxSize cl.1 cl.2.2
  (sl.1, cl.2.1 ++ sl.2)

/-- The ordering the spec claims is used: creation time ascending with ties
broken by path. (Stated from the spec's words, for comparison with
`sortCands`, which is what the code does.) Paths are compared
lexicographically on their character sequences, which is the standard string
order (`String.lt_iff_toList_lt` in Mathlib). -/
def specTieLE (a b : RFile) : Prop :=
  a.ctime < b.ctime ∨ (a.ctime = b.ctime ∧ ¬ b.path.data < a.path.data)

instance : DecidableRel specTieLE := fun a b =>
  inferInstanceAs
    (Decidable (a.ctime < b.ctime ∨ (a.ctime = b.ctime ∧ ¬ b.path.data < a.path.data)))

/-- Sorting by the spec's claimed tie-breaking order. -/
def specSortCands (l : List RFile) : List RFile := l.insertionSort specTieLE

/-! ### Retention lemmas -/

theorem countLoop_del_append (maxFiles : Nat) :
    ∀ (l : List RFile) (t : Nat),
      (countLoop maxFiles l t).2.1 ++ (countLoop maxFiles l t).1 = l
  | [], _ => rfl
  | f :: rest, t => by
    by_cases h : (f :: rest).length > maxFiles
    · simp only [countLoop, if_pos h, List.cons_append]
      exact congrArg (f :: ·) (countLoop_del_append maxFiles rest (t - f.size))
    · simp only [countLoop, if_neg h, List.nil_append]

theorem countLoop_len (maxFiles : Nat) :
    ∀ (l : List RFile) (t : Nat), (countLoop maxFiles l t).1.length ≤ maxFiles
  | [], _ => Nat.zero_le _
  | f :: rest, t => by
    by_cases h : (f :: rest).length > maxFiles
    · simp only [countLoop, if_pos h]
      exact countLoop_len maxFiles rest (t - f.size)
    · simp only [countLoop, if_neg h]
      exact Nat.le_of_not_lt h

theorem countLoop_total (maxFiles : Nat) :
    ∀ l : List RFile,
      (countLoop maxFiles l (sumSizes l)).2.2 =
        sumSizes (countLoop maxFiles l (sumSizes l)).1
  | [] => rfl
  | f :: rest => by
    by_cases h : (f :: rest).length > maxFiles
    · have harg : sumSizes (f :: rest) - f.size = sumSizes rest := by
        simp [sumSizes, Nat.add_comm, Nat.add_sub_cancel]
      simp only [countLoop, if_pos h, harg]
      exact countLoop_total maxFiles rest
    · simp only [countLoop, if_neg h]

theorem sizeLoop_del_append (maxSize : Nat) :
    ∀ (l : List RFile) (t : Nat),
      (sizeLoop maxSize l t).2 ++ (sizeLoop maxSize l t).1 = l
  | [], _ => rfl
  | f :: rest, t => by
    by_cases h : t > maxSize
    · simp only [sizeLoop, if_pos h, List.cons_append]
      exact congrArg (f :: ·) (sizeLoop_del_append maxSize rest (t - f.size))
    · simp only [sizeLoop, if_neg h, List.nil_append]

theorem sizeLoop_bound (maxSize : Nat) :
    ∀ l : List RFile,
      sumSizes (sizeLoop maxSize l (sumSizes l)).1 ≤ maxSize ∨
        (sizeLoop maxSize l (sumSizes l)).1 = []
  | [] => Or.inr rfl
  | f :: rest => by
    by_cases h : sumSizes (f :: rest) > maxSize
    · have harg : sumSizes (f :: rest) - f.size = sumSizes rest := by
        simp [sumSizes, Nat.add_comm, Nat.add_sub_cancel]
      simp only [sizeLoop, if_pos h, harg]
      exact sizeLoop_bound maxSize rest
    · simp only [sizeLoop, if_neg h]
      exact Or.inl (Nat.le_of_not_lt h)

theorem collectCandidates_of_nonzero :
    ∀ l : List RFile, (∀ f ∈ l, f.size ≠ 0) →
      collectCandidates l = (l, sumSizes l)
  | [], _ => rfl
  | f :: rest, h => by
    have hr := collectCandidates_of_nonzero rest (fun g hg => h g (List.mem_cons_of_mem f hg))
    have hf : f.size ≠ 0 := h f (List.mem_cons_self f rest)
    simp only [collectCandidates, hr, if_neg hf, sumSizes, List.map_cons, List.sum_cons]
    exact Prod.ext rfl (Nat.add_comm _ _)

theorem cleanup_cycle_eq (maxF maxS : Nat) (listing : List RFile) :
    cleanup_cycle maxF maxS listing =
      ((sizeLoop maxS
          (countLoop maxF (sortCands (collectCandidates listing).1)
            (collectCandidates listing).2).1
          (countLoop maxF (sortCands (collectCandidates listing).1)
            (collectCandidates listing).2).2.2).1,
        (countLoop maxF (sortCands (collectCandidates listing).1)
          (collectCandidates listing).2).2.1 ++
          (sizeLoop maxS
            (countLoop maxF (sortCands (collectCandidates listing).1)
              (collectCandidates listing).2).1
            (countLoop maxF (sortCands (collectCandidates listing).1)
              (collectCandidates listing).2).2.2).2) := rfl

/-- The files deleted by one cycle, followed by the files remaining, are
exactly the candidates in the sorted (oldest-first) order. -/
theorem cleanup_del_append (maxF maxS : Nat) (listing : List RFile) :
    (cleanup_cycle maxF maxS listing).2 ++ (cleanup_cycle maxF maxS listing).1 =
      sortCands (collectCandidates listing).1 := by
  rw [cleanup_cycle_eq]
  rw [List.append_assoc, sizeLoop_del_append, countLoop_del_append]

/-- The deleted files are an initial segment of the sorted candidate list. -/
theorem cleanup_deleted_take (maxF maxS : Nat) (listing : List RFile) :
    (cleanup_cycle maxF maxS listing).2 =
      (sortCands (collectCandidates listing).1).take
        (cleanup_cycle maxF maxS listing).2.length := by
  rw [← cleanup_del_append maxF maxS listing, List.take_left]

theorem sizeLoop_rem_len_le (maxS : Nat) (l : List RFile) (t : Nat) :
    (sizeLoop maxS l t).1.length ≤ l.length := by
  have h := congrArg List.length (sizeLoop_del_append maxS l t)
  rw [List.length_append] at h
  rw [← h]
  exact Nat.le_add_left _ _

/-- C3: with all candidates of non-zero size and every deletion succeeding,
one cleanup cycle leaves at most `maxF` files, leaves total size at most
`maxS` unless nothing remains, and deletes exactly a prefix of the candidates
in creation-time-ascending order. -/
theorem cleanup_cycle_caps_and_oldest_first (maxF maxS : Nat) (listing : List RFile)
    (hnz : ∀ f ∈ listing, f.size ≠ 0) :
    (cleanup_cycle maxF maxS listing).1.length ≤ maxF ∧
      (sumSizes (cleanup_cycle maxF maxS listing).1 ≤ maxS ∨
        (cleanup_cycle maxF maxS listing).1 = []) ∧
      (cleanup_cycle maxF maxS listing).2 =
        (sortCands listing).take (cleanup_cycle maxF maxS listing).2.length ∧
      List.Sorted ctimeLE (sortCands listing) ∧
      (sortCands listing).Perm listing := by
  have hct : collectCandidates listing = (listing, sumSizes listing) :=
    collectCandidates_of_nonzero listing hnz
  have hperm : (sortCands listing).Perm listing := List.perm_insertionSort _ _
  have hsum : sumSizes listing = sumSizes (sortCands listing) :=
    ((hperm.map RFile.size).sum_eq).symm
  have hcl2 : (countLoop maxF (sortCands listing) (sumSizes listing)).2.2 =
      sumSizes (countLoop maxF (sortCands listing) (sumSizes listing)).1 := by
    rw [hsum]
    exact countLoop_total maxF (sortCands listing)
  refine ⟨?_, ?_, ?_, List.sorted_insertionSort ctimeLE listing, hperm⟩
  · simp only [cleanup_cycle_eq, hct]
    exact Nat.le_trans (sizeLoop_rem_len_le _ _ _) (countLoop_len maxF _ _)
  · simp only [cleanup_cycle_eq, hct, hcl2]
    exact sizeLoop_bound maxS _
  · have h := cleanup_deleted_take maxF maxS listing
    simp only [hct] at h
    exact h

def c3Listing : List RFile :=
  [⟨1, "a.mkv", 10⟩, ⟨2, "b.mkv", 20⟩, ⟨3, "c.mkv", 30⟩,
    ⟨4, "d.mkv", 40⟩, ⟨5, "e.mkv", 50⟩]

/-- Witness for C3 at the spec's own example: five files of sizes
10..50 with `max_files = 10` and `max_size = 70`. -/
theorem cleanup_cycle_caps_and_oldest_first_witness :
    (∀ f ∈ c3Listing, f.size ≠ 0) ∧
      ((cleanup_cycle 10 70 c3Listing).1.length ≤ 10 ∧
        (sumSizes (cleanup_cycle 10 70 c3Listing).1 ≤ 70 ∨
          (cleanup_cycle 10 70 c3Listing).1 = []) ∧
        (cleanup_cycle 10 70 c3Listing).2 =
          (sortCands c3Listing).take (cleanup_cycle 10 70 c3Listing).2.length ∧
        List.Sorted ctimeLE (sortCands c3Listing) ∧
        (sortCands c3Listing).Perm c3Listing) :=
  ⟨by decide, cleanup_cycle_caps_and_oldest_first 10 70 c3Listing (by decide)⟩

/-- C4 counterexample: the cleanup cycle consults no session state, so a
session whose current file is `cur.mkv` — the oldest candidate — sees that
very file deleted once the count cap forces an eviction. -/
theorem cleanup_deletes_tracked_current_file :
    (⟨1, "cur.mkv", 10⟩ : RFile) ∈ (cleanup_cycle 0 100 [⟨1, "cur.mkv", 10⟩]).2 := by
  decide

/-- C4 amended: the retention cycle takes no account of the session's current
file; any file — in particular the one the supervisor considers current —
is deleted as soon as it falls inside the evicted oldest-first prefix. -/
theorem cleanup_ignores_current_file (maxF maxS : Nat) (listing : List RFile)
    (cur : RFile)
    (h : cur ∈ (sortCands (collectCandidates listing).1).take
          (cleanup_cycle maxF maxS listing).2.length) :
    cur ∈ (cleanup_cycle maxF maxS listing).2 := by
  rw [cleanup_deleted_take maxF maxS listing]
  exact h

/-- Witness for the amended C4: a current file that is oldest among two
candidates falls in the evicted prefix and is deleted. -/
theorem cleanup_ignores_current_file_witness :
    ((⟨1, "cur.mkv", 10⟩ : RFile) ∈
        (sortCands (collectCandidates [(⟨1, "cur.mkv", 10⟩ : RFile), ⟨2, "x.mkv", 5⟩]).1).take
          (cleanup_cycle 1 3 [(⟨1, "cur.mkv", 10⟩ : RFile), ⟨2, "x.mkv", 5⟩]).2.length) ∧
      (⟨1, "cur.mkv", 10⟩ : RFile) ∈
        (cleanup_cycle 1 3 [(⟨1, "cur.mkv", 10⟩ : RFile), ⟨2, "x.mkv", 5⟩]).2 :=
  ⟨by decide, cleanup_ignores_current_file 1 3 _ _ (by decide)⟩

def c8Listing : List RFile := [⟨5, "b.mkv", 10⟩, ⟨5, "a.mkv", 10⟩]

/-- C8 counterexample: two candidates share a creation time and appear in the
listing in non-path order; the code's sort (key = creation time only, stable)
keeps them in listing order and evicts `b.mkv` first, whereas the claimed
tie-break by path would evict `a.mkv` first. -/
theorem cleanup_tie_break_not_by_path :
    sortCands c8Listing = [⟨5, "b.mkv", 10⟩, ⟨5, "a.mkv", 10⟩] ∧
      specSortCands c8Listing = [⟨5, "a.mkv", 10⟩, ⟨5, "b.mkv", 10⟩] ∧
      sortCands c8Listing ≠ specSortCands c8Listing ∧
      (cleanup_cycle 1 1000 c8Listing).2.map RFile.path = ["b.mkv"] ∧
      ("b.mkv" : String) ≠ "a.mkv" := by
  decide

/-- C8 amended: the eviction order is creation time ascending, with candidates
of equal creation time kept in directory-listing order (the sort is stable on
its only key, the creation time); ties are not broken by path. -/
theorem cleanup_sort_stable_on_ties (l : List RFile) (a b : RFile)
    (hct : a.ctime = b.ctime) (hsub : List.Sublist [a, b] l) :
    List.Sorted ctimeLE (sortCands l) ∧ (sortCands l).Perm l ∧
      List.Sublist [a, b] (sortCands l) :=
  ⟨List.sorted_insertionSort ctimeLE l, List.perm_insertionSort ctimeLE l,
    List.pair_sublist_insertionSort (Nat.le_of_eq hct) hsub⟩

/-- Witness for the amended C8 at the tie listing `c8Listing`. -/
theorem cleanup_sort_stable_on_ties_witness :
    ((⟨5, "b.mkv", 10⟩ : RFile).ctime = (⟨5, "a.mkv", 10⟩ : RFile).ctime ∧
        List.Sublist [(⟨5, "b.mkv", 10⟩ : RFile), ⟨5, "a.mkv", 10⟩] c8Listing) ∧
      (List.Sorted ctimeLE (sortCands c8Listing) ∧
        (sortCands c8Listing).Perm c8Listing ∧
        List.Sublist [(⟨5, "b.mkv", 10⟩ : RFile), ⟨5, "a.mkv", 10⟩] (sortCands c8Listing)) :=
  ⟨⟨rfl, List.Sublist.refl _⟩,
    cleanup_sort_stable_on_ties c8Listing _ _ rfl (List.Sublist.refl _)⟩

/-! ## Exit-code model: `FFmpegRecorder._handle_exit_code`

The handler reads the stop flag and may set the restart flag. Codes are
integers (POSIX `Popen` return codes may be negative).
-/

structure SupFlags where
  stopSet : Bool
  restartSet : Bool
  deriving DecidableEq, Repr

/-- Model of `_handle_exit_code`: codes 255 and 137 are logged as normal exits; any
other code is logged as abnormal and, when no stop was requested, sets the
restart flag. -/
def handle_exit_code (code : Int) (st : SupFlags) : SupFlags :=
  if code = 255 ∨ code = 137 then st
  else if st.stopSet = false then { st with restartSet := true } else st

/-- C2: exit codes 255 and 137 request no restart; any other non-zero code
with no stop requested sets the restart flag (in particular code 1 restarts,
and code 255 without a stop request does not). -/
theorem handle_exit_code_policy (code : Int) (st : SupFlags) :
    ((code = 255 ∨ code = 137) → handle_exit_code code st = st) ∧
      (code ≠ 255 → code ≠ 137 → code ≠ 0 → st.stopSet = false →
        (handle_exit_code code st).restartSet = true) := by
  constructor
  · intro h
    simp [handle_exit_code, h]
  · intro h255 h137 _ hstop
    simp [handle_exit_code, h255, h137, hstop]

/-- Witness for C2 at codes 255 (no restart) and 1 (restart). -/
theorem handle_exit_code_policy_witness :
    handle_exit_code 255 ⟨false, false⟩ = ⟨false, false⟩ ∧
      (handle_exit_code 1 ⟨false, false⟩).restartSet = true :=
  ⟨(handle_exit_code_policy 255 ⟨false, false⟩).1 (Or.inl rfl),
    (handle_exit_code_policy 1 ⟨false, false⟩).2 (by decide) (by decide) (by decide) rfl⟩

/-- C9: a clean zero exit with no stop requested also sets the restart flag —
`0 in (255, 137)` is false, so code 0 falls into the abnormal-exit branch and
is handled exactly like exit code 1. -/
theorem handle_exit_code_zero_restarts :
    (handle_exit_code 0 ⟨false, false⟩).restartSet = true ∧
      handle_exit_code 0 ⟨false, false⟩ = handle_exit_code 1 ⟨false, false⟩ := by
  decide

/-! ## Staged shutdown model: `FFmpegRecorder._terminate_ffmpeg`

The process behavior says which of the shutdown stimuli the external process
responds to (responding means exiting promptly; a kill always reaps). The
run records, in order, each stimulus issued together with the wait time
already consumed when it is issued: an ignored quit command consumes its
full 15-unit wait, an ignored interrupt or terminate its full 5-unit wait,
and an honored stimulus makes the bounded wait return at once (modeled as
consuming no time, a lower bound on real elapsed time). Signal delivery and
the stdin write are assumed to succeed (the process is alive), so the
generic exception path of the code is not taken.
-/

inductive TermAct
  | quit
  | int
  | term
  | kill
  deriving DecidableEq, Repr

structure ProcBehavior where
  hasStdin : Bool
  honorsQuit : Bool
  honorsInt : Bool
  honorsTerm : Bool
  deriving DecidableEq, Repr

structure ShutdownRun where
  trace : List (TermAct × Nat)
  reachedKill : Bool
  exited : Bool
  deriving DecidableEq, Repr

/-- The `except subprocess.TimeoutExpired` handler: send terminate, wait up
to 5 units; on a second timeout send kill and wait unconditionally.
`t` is the wait time already consumed when the handler is entered. -/
def escalateTerminate (p : ProcBehavior) (t : Nat) (tr : List (TermAct × Nat)) :
    ShutdownRun :=
  if p.honorsTerm then ⟨tr ++ [(TermAct.term, t)], false, true⟩
  else ⟨tr ++ [(TermAct.term, t), (TermAct.kill, t + 5)], true, true⟩

/-- Model of `_terminate_ffmpeg` on a live process (`running = true`): write the quit
command on stdin and wait up to 15 units; if that `wait` raises
`TimeoutExpired`, control jumps directly to the `except` handler
(`escalateTerminate`) — the interrupt signal lines are skipped. Only when
the quit wait returns (or there is no stdin pipe) is the interrupt signal
sent, followed by a 5-unit wait whose timeout also escalates. -/
def terminate_ffmpeg (running : Bool) (p : ProcBehavior) : ShutdownRun :=
  if running then
    if p.hasStdin then
      if p.honorsQuit then
        ⟨[(TermAct.quit, 0), (TermAct.int, 0)], false, true⟩
      else
        escalateTerminate p 15 [(TermAct.quit, 0)]
    else
      if p.honorsInt then ⟨[(TermAct.int, 0)], false, true⟩
      else escalateTerminate p 5 [(TermAct.int, 0)]
  else ⟨[], false, false⟩

/-- C1 counterexample: a live process with a stdin pipe that ignores the quit
command and the interrupt signal but honors terminate. The quit-stage
timeout raises `TimeoutExpired`, which jumps straight to the terminate
handler: the interrupt signal is never issued, and terminate is issued
after only the 15-unit quit wait, not after quit-wait plus interrupt-wait. -/
theorem staged_shutdown_skips_interrupt :
    (terminate_ffmpeg true ⟨true, false, false, true⟩).trace =
        [(TermAct.quit, 0), (TermAct.term, 15)] ∧
      TermAct.int ∉ (terminate_ffmpeg true ⟨true, false, false, true⟩).trace.map Prod.fst ∧
      (terminate_ffmpeg true ⟨true, false, false, true⟩).reachedKill = false ∧
      (terminate_ffmpeg true ⟨true, false, false, true⟩).exited = true := by
  decide

/-- C1 amended: when the process ignores the quit command and honors
terminate, the quit-wait timeout escalates directly to the terminate stage,
skipping the interrupt signal entirely: the issued stimuli are exactly quit
(at wait time 0) then terminate (after the 15-unit quit wait alone), the
process exits there, and the final kill stage is never reached. -/
theorem staged_shutdown_quit_timeout_escalates (p : ProcBehavior)
    (hs : p.hasStdin = true) (hq : p.honorsQuit = false)
    (ht : p.honorsTerm = true) :
    (terminate_ffmpeg true p).trace = [(TermAct.quit, 0), (TermAct.term, 15)] ∧
      (terminate_ffmpeg true p).reachedKill = false ∧
      (terminate_ffmpeg true p).exited = true := by
  cases p
  simp_all [terminate_ffmpeg, escalateTerminate]

/-- Witness for the amended C1. -/
theorem staged_shutdown_quit_timeout_escalates_witness :
    ((⟨true, false, true, true⟩ : ProcBehavior).hasStdin = true ∧
        (⟨true, false, true, true⟩ : ProcBehavior).honorsQuit = false ∧
        (⟨true, false, true, true⟩ : ProcBehavior).honorsTerm = true) ∧
      ((terminate_ffmpeg true ⟨true, false, true, true⟩).trace =
          [(TermAct.quit, 0), (TermAct.term, 15)] ∧
        (terminate_ffmpeg true ⟨true, false, true, true⟩).reachedKill = false ∧
        (terminate_ffmpeg true ⟨true, false, true, true⟩).exited = true) :=
  ⟨⟨rfl, rfl, rfl⟩,
    staged_shutdown_quit_timeout_escalates ⟨true, false, true, true⟩ rfl rfl rfl⟩

/-! ## Liveness monitor model: `FFmpegRecorder._monitor_process`

One loop iteration of the monitor thread, driven by what the filesystem
returns at that tick: the current wall-clock time, whether the tracked file
exists, whether its size read succeeds (`FileNotFoundError` otherwise) and
its value, and the result of `find_latest_mkv()` with that file's size.
The state collects the recorder fields the loop reads and writes
(`current_file`, `last_check_time`, `last_size`, the two events) together
with the loop-local `file_created` flag, which is initialized to `False`
and never assigned anywhere in the loop body.
-/

structure MonCfg where
  timeout : Nat
  file_timeout : Nat
  start_time : Nat
  deriving DecidableEq, Repr

structure MonState where
  current_file : Option String
  last_check_time : Nat
  last_size : Nat
  restart : Bool
  stop : Bool
  file_created : Bool
  deriving DecidableEq, Repr

structure Poll where
  now : Nat
  fileExists : Bool
  readOk : Bool
  size : Nat
  latest : Option String
  latestSize : Nat
  deriving DecidableEq, Repr

/-- One iteration of the `while` loop in `_monitor_process`. The loop guard
(`not stop_event and not restart_event`) makes the step a no-op once either
event is set; otherwise the body follows the code: missing tracked file
triggers rediscovery or (after the creation timeout with no file found) a
restart; an existing file is compared against `last_size`, growth records
progress, an unchanged size first looks for a newer file to switch to and
only then applies the stall-timeout test; a `FileNotFoundError` on the size
read raises a restart only under the `file_created` flag. -/
def monStep (cfg : MonCfg) (p : Poll) (st : MonState) : MonState :=
  if st.stop || st.restart then st
  else
    match st.current_file with
    | none => st
    | some target =>
      if p.fileExists = false then
        match p.latest with
        | some f =>
          { st with current_file := some f, last_check_time := p.now,
                    last_size := p.latestSize }
        | none =>
          if p.now - cfg.start_time > cfg.file_timeout then
            { st with restart := true }
          else st
      else
        if p.readOk then
          if p.size > st.last_size then
            { st with last_size := p.size, last_check_time := p.now }
          else
            match p.latest with
            | some f =>
              if f ≠ target then
                { st with current_file := some f, last_check_time := p.now,
                          last_size := p.latestSize }
              else if p.now - st.last_check_time > cfg.timeout then
                { st with restart := true }
              else st
            | none =>
              if p.now - st.last_check_time > cfg.timeout then
                { st with restart := true }
              else st
        else
          if st.file_created then { st with restart := true } else st

/-- Iterating the monitor loop over a sequence of poll observations. -/
def monRun (cfg : MonCfg) : List Poll → MonState → MonState
  | [], st => st
  | p :: ps, st => monRun cfg ps (monStep cfg p st)

/-- A poll sequence in which the tracked file is present and readable, its
observed size never decreases, and every poll (in particular every size
increase) happens within the stall timeout of the progress time recorded so
far. -/
def steadyPolls (cfg : MonCfg) : MonState → List Poll → Bool
  | _, [] => true
  | st, p :: ps =>
    p.fileExists && p.readOk && Nat.ble st.last_size p.size &&
      Nat.ble p.now (st.last_check_time + cfg.timeout) &&
      steadyPolls cfg (monStep cfg p st) ps

theorem monStep_restart_of_steady (cfg : MonCfg) (p : Poll) (st : MonState)
    (hr : st.restart = false) (hex : p.fileExists = true)
    (hok : p.readOk = true)
    (hnow : p.now ≤ st.last_check_time + cfg.timeout) :
    (monStep cfg p st).restart = false := by
  have hto : ¬ p.now - st.last_check_time > cfg.timeout := by omega
  cases hstop : st.stop with
  | true => simp [monStep, hstop, hr]
  | false =>
    cases htgt : st.current_file with
    | none => simp [monStep, hstop, hr, htgt]
    | some target =>
      cases hl : p.latest with
      | none =>
        by_cases hgrow : p.size > st.last_size <;>
          simp [monStep, hstop, hr, htgt, hex, hok, hl, hgrow, hto]
      | some f =>
        by_cases hgrow : p.size > st.last_size
        · simp [monStep, hstop, hr, htgt, hex, hok, hl, hgrow]
        · by_cases hft : f = target <;>
            simp [monStep, hstop, hr, htgt, hex, hok, hl, hgrow, hft, hto]

/-- C6: over any sequence of polls of the tracked file in which the file is
present and readable, the observed size never decreases, and every poll
happens within the stall timeout of the last recorded progress time, the
watchdog never sets the restart flag. -/
theorem monitor_no_restart_when_steady (cfg : MonCfg) :
    ∀ (polls : List Poll) (st : MonState), st.restart = false →
      steadyPolls cfg st polls = true → (monRun cfg polls st).restart = false
  | [], _, hr, _ => hr
  | p :: ps, st, hr, hs => by
    simp only [steadyPolls, Bool.and_eq_true] at hs
    obtain ⟨⟨⟨⟨hex, hok⟩, _⟩, hble⟩, hrest⟩ := hs
    exact monitor_no_restart_when_steady cfg ps (monStep cfg p st)
      (monStep_restart_of_steady cfg p st hr hex hok (Nat.le_of_ble_eq_true hble))
      hrest

/-- Witness for C6: two steady polls (one growth, one unchanged-but-in-time)
raise no restart. -/
theorem monitor_no_restart_when_steady_witness :
    ((⟨some ("f.mkv"), 0, 0, false, false, false⟩ : MonState).restart = false ∧
        steadyPolls ⟨10, 10, 0⟩ ⟨some ("f.mkv"), 0, 0, false, false, false⟩
          [⟨5, true, true, 3, some ("f.mkv"), 3⟩,
            ⟨14, true, true, 3, some ("f.mkv"), 3⟩] = true) ∧
      (monRun ⟨10, 10, 0⟩
          [⟨5, true, true, 3, some ("f.mkv"), 3⟩,
            ⟨14, true, true, 3, some ("f.mkv"), 3⟩]
          ⟨some ("f.mkv"), 0, 0, false, false, false⟩).restart = false :=
  ⟨⟨rfl, by decide⟩,
    monitor_no_restart_when_steady ⟨10, 10, 0⟩
      [⟨5, true, true, 3, some ("f.mkv"), 3⟩, ⟨14, true, true, 3, some ("f.mkv"), 3⟩]
      ⟨some ("f.mkv"), 0, 0, false, false, false⟩ rfl (by decide)⟩

/-- C7: on a poll where the tracked file exists, its size equals the last
observed size and no newer matching file exists, the watchdog sets the
restart flag as soon as the time since the last recorded progress exceeds
the stall timeout — and then raises nothing further, since the loop guard
makes every subsequent step a no-op — while a poll still within the timeout
leaves the state entirely unchanged. -/
theorem monitor_stall_exactly_one_restart (cfg : MonCfg) (st : MonState)
    (p q : Poll) (target : String)
    (hr : st.restart = false) (hstop : st.stop = false)
    (htgt : st.current_file = some target)
    (hex : p.fileExists = true) (hok : p.readOk = true)
    (hflat : p.size = st.last_size)
    (hlatest : p.latest = some target ∨ p.latest = none) :
    (cfg.timeout < p.now - st.last_check_time →
        (monStep cfg p st).restart = true ∧
          monStep cfg q (monStep cfg p st) = monStep cfg p st) ∧
      (p.now - st.last_check_time ≤ cfg.timeout → monStep cfg p st = st) := by
  have hngrow : ¬ p.size > st.last_size := by omega
  constructor
  · intro hto
    have hstep : monStep cfg p st = { st with restart := true } := by
      rcases hlatest with hl | hl <;>
        simp [monStep, hstop, hr, htgt, hex, hok, hl, hngrow, hto]
    refine ⟨by simp [hstep], ?_⟩
    rw [hstep]
    simp [monStep]
  · intro hto
    have hto2 : ¬ p.now - st.last_check_time > cfg.timeout := by omega
    rcases hlatest with hl | hl <;>
      simp [monStep, hstop, hr, htgt, hex, hok, hl, hngrow, hto2]

/-- Witness for C7: with stall timeout 10 and last progress at time 0, an
unchanged-size poll at time 11 sets the restart flag and the next step is a
no-op; an unchanged-size poll at time 9 changes nothing. -/
theorem monitor_stall_exactly_one_restart_witness :
    ((monStep ⟨10, 10, 0⟩ ⟨11, true, true, 5, some ("f.mkv"), 5⟩
          ⟨some ("f.mkv"), 0, 5, false, false, false⟩).restart = true ∧
        monStep ⟨10, 10, 0⟩ ⟨20, true, true, 5, some ("f.mkv"), 5⟩
            (monStep ⟨10, 10, 0⟩ ⟨11, true, true, 5, some ("f.mkv"), 5⟩
              ⟨some ("f.mkv"), 0, 5, false, false, false⟩) =
          monStep ⟨10, 10, 0⟩ ⟨11, true, true, 5, some ("f.mkv"), 5⟩
            ⟨some ("f.mkv"), 0, 5, false, false, false⟩) ∧
      monStep ⟨10, 10, 0⟩ ⟨9, true, true, 5, none, 0⟩
          ⟨some ("f.mkv"), 0, 5, false, false, false⟩ =
        ⟨some ("f.mkv"), 0, 5, false, false, false⟩ :=
  ⟨(monitor_stall_exactly_one_restart ⟨10, 10, 0⟩
        ⟨some ("f.mkv"), 0, 5, false, false, false⟩
        ⟨11, true, true, 5, some ("f.mkv"), 5⟩
        ⟨20, true, true, 5, some ("f.mkv"), 5⟩ ("f.mkv")
        rfl rfl rfl rfl rfl rfl (Or.inl rfl)).1 (by decide),
    (monitor_stall_exactly_one_restart ⟨10, 10, 0⟩
        ⟨some ("f.mkv"), 0, 5, false, false, false⟩
        ⟨9, true, true, 5, none, 0⟩
        ⟨20, true, true, 5, some ("f.mkv"), 5⟩ ("f.mkv")
        rfl rfl rfl rfl rfl rfl (Or.inr rfl)).2 (by decide)⟩

/-- C10: the `file_created` flag is initialized to `False` and no statement of
the monitor loop ever assigns it, so it is false in every reachable state;
consequently the `FileNotFoundError` handler (file present at the existence
check but gone at the size read) never sets the restart flag — that step
leaves the state untouched. -/
theorem monitor_vanished_branch_dead (cfg : MonCfg) :
    (∀ (polls : List Poll) (st : MonState), st.file_created = false →
        (monRun cfg polls st).file_created = false) ∧
      (∀ (p : Poll) (st : MonState), st.file_created = false →
        st.stop = false → st.restart = false → st.current_file ≠ none →
        p.fileExists = true → p.readOk = false → monStep cfg p st = st) := by
  have hpreserve : ∀ (p : Poll) (st : MonState),
      (monStep cfg p st).file_created = st.file_created := by
    intro p st
    cases hstop : st.stop with
    | true => simp [monStep, hstop]
    | false =>
      cases hr : st.restart with
      | true => simp [monStep, hstop, hr]
      | false =>
        cases htgt : st.current_file with
        | none => simp [monStep, hstop, hr, htgt]
        | some target =>
          cases hex : p.fileExists with
          | false =>
            cases hl : p.latest with
            | none =>
              by_cases hfc : p.now - cfg.start_time > cfg.file_timeout <;>
                simp [monStep, hstop, hr, htgt, hex, hl, hfc]
            | some f => simp [monStep, hstop, hr, htgt, hex, hl]
          | true =>
            cases hok : p.readOk with
            | false =>
              by_cases hcr : st.file_created <;>
                simp [monStep, hstop, hr, htgt, hex, hok, hcr]
            | true =>
              by_cases hgrow : p.size > st.last_size
              · simp [monStep, hstop, hr, htgt, hex, hok, hgrow]
              · cases hl : p.latest with
                | none =>
                  by_cases hto : p.now - st.last_check_time > cfg.timeout <;>
                    simp [monStep, hstop, hr, htgt, hex, hok, hgrow, hl, hto]
                | some f =>
                  by_cases hft : f = target
                  · by_cases hto : p.now - st.last_check_time > cfg.timeout <;>
                      simp [monStep, hstop, hr, htgt, hex, hok, hgrow, hl, hft, hto]
                  · simp [monStep, hstop, hr, htgt, hex, hok, hgrow, hl, hft]
  constructor
  · intro polls
    induction polls with
    | nil => intro st h; exact h
    | cons p ps ih =>
      intro st h
      exact ih (monStep cfg p st) ((hpreserve p st).trans h)
  · intro p st hcreated hstop hr htgt hex hok
    obtain ⟨target, htarget⟩ := Option.ne_none_iff_exists'.mp htgt
    simp [monStep, hstop, hr, htarget, hex, hok, hcreated]

/-- Witness for C10: a run keeps `file_created` false, and a poll that loses
the file between the existence check and the size read changes nothing. -/
theorem monitor_vanished_branch_dead_witness :
    ((⟨some ("f.mkv"), 0, 5, false, false, false⟩ : MonState).file_created = false ∧
        (monRun ⟨10, 10, 0⟩ [⟨4, true, false, 0, some ("f.mkv"), 7⟩]
          ⟨some ("f.mkv"), 0, 5, false, false, false⟩).file_created = false) ∧
      monStep ⟨10, 10, 0⟩ ⟨4, true, false, 0, some ("f.mkv"), 7⟩
          ⟨some ("f.mkv"), 0, 5, false, false, false⟩ =
        ⟨some ("f.mkv"), 0, 5, false, false, false⟩ :=
  ⟨⟨rfl,
      (monitor_vanished_branch_dead ⟨10, 10, 0⟩).1
        [⟨4, true, false, 0, some ("f.mkv"), 7⟩]
        ⟨some ("f.mkv"), 0, 5, false, false, false⟩ rfl⟩,
    (monitor_vanished_branch_dead ⟨10, 10, 0⟩).2
      ⟨4, true, false, 0, some ("f.mkv"), 7⟩
      ⟨some ("f.mkv"), 0, 5, false, false, false⟩ rfl rfl rfl (by decide) rfl rfl⟩

/-! ## File-close event handler model: `FileEventHandler.on_closed`

The handler receives a filesystem event carrying a directory flag and a
source path; `os.path.normpath` is modeled as the identity (paths are kept
as given). The extension test `event.src_path.lower().endswith(".mkv")` is
expressed on the path's character sequence. The handler shares the
recorder's watch state (`current_file`, `last_check_time`) and keeps its own
`last_file` deduplication field.
-/

def lowerEndsWithMkv (s : String) : Bool :=
  List.isSuffixOf (String.toList (".mkv")) (List.map Char.toLower (String.toList s))

structure FsEvent where
  is_directory : Bool
  src_path : String
  deriving DecidableEq, Repr

structure HandlerState where
  last_file : Option String
  deriving DecidableEq, Repr

/-- Model of `FileEventHandler.on_closed`: for a non-directory event whose
path matches the extension and differs from the handler's `last_file`, the
recorder's `current_file` becomes the event path and `last_check_time`
becomes the current time; otherwise nothing changes. No creation-time (or
any other) comparison with the previously tracked file is made. -/
def on_closed (now : Nat) (e : FsEvent) (h : HandlerState) (st : MonState) :
    HandlerState × MonState :=
  if e.is_directory = false ∧ lowerEndsWithMkv e.src_path = true then
    if some e.src_path ≠ h.last_file then
      (⟨some e.src_path⟩,
        { st with current_file := some e.src_path, last_check_time := now })
    else (h, st)
  else (h, st)

/-- A creation-time assignment for the C5 counterexample: the event file
`stale.mkv` was created at time 10, every other file at time 100. -/
def demoCtime (s : String) : Nat := if s = "stale.mkv" then 10 else 100

/-- C5 counterexample: with `current.mkv` (creation time 100) tracked, a
close event for `stale.mkv` (creation time 10) is adopted as the new current
file — the tracked file regresses to a strictly older file, because
`on_closed` compares nothing but the path against `last_file`. -/
theorem watcher_adopts_older_file :
    ((on_closed 60 ⟨false, "stale.mkv"⟩ ⟨some ("current.mkv")⟩
          ⟨some ("current.mkv"), 50, 5, false, false, false⟩).2.current_file =
        some ("stale.mkv")) ∧
      demoCtime ("stale.mkv") < demoCtime ("current.mkv") := by
  decide

/-- C5 amended: the close-event handler performs no creation-time comparison
at all: every non-directory close event for a matching path that differs
from the handler's last seen file is adopted unconditionally as the current
file (and the watchdog's rediscovery paths likewise adopt the
latest-by-modification-time file without comparing creation times), so the
tracked file can move to a file with an older creation time. -/
theorem watcher_adopts_event_unconditionally (now : Nat) (e : FsEvent)
    (h : HandlerState) (st : MonState)
    (hdir : e.is_directory = false)
    (hext : lowerEndsWithMkv e.src_path = true)
    (hnew : some e.src_path ≠ h.last_file) :
    (on_closed now e h st).2.current_file = some e.src_path ∧
      (on_closed now e h st).2.last_check_time = now ∧
      (on_closed now e h st).1.last_file = some e.src_path := by
  simp [on_closed, hdir, hext, hnew]

/-- Witness for the amended C5. -/
theorem watcher_adopts_event_unconditionally_witness :
    ((⟨false, "b.mkv"⟩ : FsEvent).is_directory = false ∧
        lowerEndsWithMkv (⟨false, "b.mkv"⟩ : FsEvent).src_path = true ∧
        some (⟨false, "b.mkv"⟩ : FsEvent).src_path ≠
          (⟨some ("cur.mkv")⟩ : HandlerState).last_file) ∧
      ((on_closed 7 ⟨false, "b.mkv"⟩ ⟨some ("cur.mkv")⟩
            ⟨some ("cur.mkv"), 3, 5, false, false, false⟩).2.current_file =
          some ("b.mkv") ∧
        (on_closed 7 ⟨false, "b.mkv"⟩ ⟨some ("cur.mkv")⟩
            ⟨some ("cur.mkv"), 3, 5, false, false, false⟩).2.last_check_time = 7 ∧
        (on_closed 7 ⟨false, "b.mkv"⟩ ⟨some ("cur.mkv")⟩
            ⟨some ("cur.mkv"), 3, 5, false, false, false⟩).1.last_file =
          some ("b.mkv")) :=
  ⟨⟨rfl, by decide, by decide⟩,
    watcher_adopts_event_unconditionally 7 ⟨false, "b.mkv"⟩ ⟨some ("cur.mkv")⟩
      ⟨some ("cur.mkv"), 3, 5, false, false, false⟩ rfl (by decide) (by decide)⟩

end RTSPRecorder
